import Mathlib

/-!
Verification development for the pagination / query-composition layer of a SQL
client library (`paginator` in the sqlbuilder package) and the PostgreSQL
array-codec types (`StringArray` / `Int64Array` in the postgresql package).

Shallow embedding conventions:
* Go byte slices are `List Nat` (one `Nat` per byte; only equality tests are
  performed on bytes, never arithmetic).
* A `nil` Go slice / `nil` interface value is `Option.none`; a present value is
  `Option.some`.
* The external `Selector` interface (the SQL statement compiler the paginator
  delegates to) is embedded as a free term algebra recording exactly the calls
  the paginator makes on it (`Limit`, `Offset`, `OrderBy`, `Where`, and the
  subquery wrapping `SQLBuilder().Select("_q0.*").From(... AS _q0).OrderBy`).
* Go `int` arithmetic that can overflow (the `pageSize * pageNumber` product in
  `Page`) is taken modulo 2^64 into the signed 64-bit range via `wrap64`.
* Cursor values have the opaque Go type `interface{}`; they are embedded as a
  type parameter `α`.
-/

/-! ## Array codec: decoder state machine (custom_types.go, lines 33-40) -/

/-- The scanner states of `StringArray.Scan`: `stateInit`, `stateOpenBracket`,
`stateOpenQuote`, `stateLiteral`, `stateEscape`, `stateStop`.  (`init` is
declared in the source but unreachable: the scan starts in `openBracket`.) -/
inductive ScanState where
  | init
  | openBracket
  | openQuote
  | literal
  | escape
  | stop
deriving DecidableEq

/-- The decode-error taxonomy of the codec (`errors.New` / `fmt.Errorf` sites
plus the `strconv.ParseInt` failure in `Int64Array.Scan`). -/
inductive DecodeErr where
  | notByteSlice
  | expectingBrace
  | trailingData
  | parseIntError
deriving DecidableEq

/-- The `src interface{}` argument of a `Scan` method: `nil`, a byte slice, or
any other value (which fails the `src.([]byte)` type assertion). -/
inductive ScanSrc where
  | null
  | bytes (b : List Nat)
  | nonBytes
deriving DecidableEq

/-- The body of the `for i := 1; i < len(b); i++` loop of `StringArray.Scan`
(custom_types.go lines 102-164), one input byte at a time.  `buffer` is the Go
`[]byte` buffer (`none` = nil slice), `results` the flushed elements.  Byte
codes: 123 `{`, 125 `}`, 32 space, 44 comma, 34 double quote, 92 backslash.
When the input is exhausted the accumulated `results` are returned (the source
falls out of the loop and assigns them with a nil error). -/
def scanLoop : List Nat → ScanState → Option (List Nat) → List (List Nat) →
    Except DecodeErr (List (List Nat))
  | [], _, _, results => .ok results
  | c :: cs, st, buffer, results =>
    match st with
    | .stop => .error .trailingData
    | .init =>
      if c = 123 then scanLoop cs .openBracket none results
      else .error .expectingBrace
    | .openBracket =>
      if c = 125 then
        scanLoop cs .stop buffer
          (match buffer with
           | some b => results ++ [b]
           | none => results)
      else if c = 32 then scanLoop cs .openBracket buffer results
      else if c = 44 then scanLoop cs .openBracket (some []) (results ++ [buffer.getD []])
      else if c = 34 then scanLoop cs .openQuote (some []) results
      else scanLoop cs .literal (some [c]) results
    | .literal =>
      if c = 125 then scanLoop cs .stop buffer (results ++ [buffer.getD []])
      else if c = 44 then scanLoop cs .openBracket (some []) (results ++ [buffer.getD []])
      else scanLoop cs .literal (some (buffer.getD [] ++ [c])) results
    | .escape => scanLoop cs .openQuote (some (buffer.getD [] ++ [c])) results
    | .openQuote =>
      if c = 92 then scanLoop cs .escape buffer results
      else if c = 34 then scanLoop cs .openBracket buffer results
      else scanLoop cs .openQuote (some (buffer.getD [] ++ [c])) results

/-- `StringArray.Scan` (custom_types.go lines 82-168).  The receiver `a` is
threaded explicitly: the result is `(returned error?, new receiver value)`.
The source assigns `*a` only on the success paths (`src == nil`, `len(b) == 0`,
or after the loop finishes), so on error the receiver keeps its old value. -/
def stringArrayScan (a : Option (List (List Nat))) (src : ScanSrc) :
    Option DecodeErr × Option (List (List Nat)) :=
  match src with
  | .null => (none, none)
  | .nonBytes => (some .notByteSlice, a)
  | .bytes b =>
    if b.length = 0 then (none, none)
    else
      match scanLoop (b.drop 1) .openBracket none [] with
      | .error e => (some e, a)
      | .ok results => (none, some results)

/-- The escaping loop of `appendArrayQuotedString` (custom_types.go lines
196-207): each `"` (34) or `\` (92) byte is preceded by a `\`; all other bytes
are copied.  The source locates the next such byte with
`strings.IndexAny(v, quote-or-backslash)`; byte-at-a-time processing is
equivalent because both target characters are single-byte. -/
def escapeBytes : List Nat → List Nat
  | [] => []
  | c :: cs => if c = 34 ∨ c = 92 then 92 :: c :: escapeBytes cs else c :: escapeBytes cs

/-- `appendArrayQuotedString` (custom_types.go lines 194-209): append `"`,
the escaped element, `"` to `b`. -/
def appendArrayQuotedString (b : List Nat) (v : List Nat) : List Nat :=
  b ++ 34 :: (escapeBytes v ++ [34])

/-- The `for i := 1; i < n; i++` loop of `StringArray.Value` (custom_types.go
lines 183-186): a comma followed by the quoted element, for each remaining
element. -/
def encRest : List (List Nat) → List Nat
  | [] => []
  | x :: xs => 44 :: (appendArrayQuotedString [] x ++ encRest xs)

/-- `StringArray.Value` (custom_types.go lines 171-192): `nil` receiver
encodes to `nil`; a non-empty array to `{` + quoted comma-joined elements +
`}`; an empty (but non-nil) array to the literal `{}`. -/
def stringArrayValue (a : Option (List (List Nat))) : Option (List Nat) :=
  match a with
  | none => none
  | some [] => some [123, 125]
  | some (x :: xs) => some (appendArrayQuotedString [123] x ++ (encRest xs ++ [125]))

/-- Model of `strings.Split(s, comma-string)` on byte lists (used by
`Int64Array.Scan`): split at every 44 (`,`) byte; adjacent separators and
boundary separators produce empty segments. -/
def splitComma : List Nat → List (List Nat)
  | [] => [[]]
  | c :: cs =>
    if c = 44 then [] :: splitComma cs
    else
      match splitComma cs with
      | [] => [[c]]
      | r :: rs => (c :: r) :: rs

/-- The digit-accumulation loop of `strconv.ParseInt(s, 10, 64)` restricted to
base 10: fails on any byte outside `0`-`9` (48-57). -/
def parseNatAux : Nat → List Nat → Option Nat
  | acc, [] => some acc
  | acc, d :: ds =>
    if 48 ≤ d ∧ d ≤ 57 then parseNatAux (acc * 10 + (d - 48)) ds else none

/-- Model of `strconv.ParseInt(s, 10, 64)`: optional leading `+` (43) or `-`
(45), then a non-empty run of decimal digits, range-checked against the signed
64-bit range (a negative value may reach `-2^63`, a positive one at most
`2^63 - 1`).  `none` is any parse error. -/
def parseInt64 (s : List Nat) : Option Int :=
  match s with
  | [] => none
  | c :: rest =>
    let neg : Bool := c = 45
    let digits := if c = 43 ∨ c = 45 then rest else s
    if digits = [] then none
    else
      match parseNatAux 0 digits with
      | none => none
      | some n =>
        if neg then (if n ≤ 2 ^ 63 then some (-(n : Int)) else none)
        else (if n ≤ 2 ^ 63 - 1 then some (n : Int) else none)

/-- The parsing loop of `Int64Array.Scan` (custom_types.go lines 232-239):
parse every comma-separated token, aborting on the first unparsable one. -/
def parseAll : List (List Nat) → Option (List Int)
  | [] => some []
  | p :: ps =>
    match parseInt64 p with
    | none => none
    | some i =>
      match parseAll ps with
      | none => none
      | some r => some (i :: r)

/-- `Int64Array.Scan` (custom_types.go lines 215-243), receiver threaded as in
`stringArrayScan`.  The source strips the first and last byte with
`string(b)[1 : len(b)-1]` (which requires `len(b) ≥ 2`; a 1-byte input would
panic in Go — no claim touches that input). -/
def int64ArrayScan (a : Option (List Int)) (src : ScanSrc) :
    Option DecodeErr × Option (List Int) :=
  match src with
  | .null => (none, none)
  | .nonBytes => (some .notByteSlice, a)
  | .bytes b =>
    if b.length = 0 then (none, none)
    else
      let s := (b.drop 1).dropLast
      if s = [] then (none, some [])
      else
        match parseAll (splitComma s) with
        | none => (some .parseIntError, a)
        | some vals => (none, some vals)

/-- Minimal base-10 digit rendering of a natural number, as produced by
`strconv.AppendInt` for the magnitude (one digit for values below ten,
otherwise the digits of `n / 10` followed by the last digit). -/
def natDigits (n : Nat) : List Nat :=
  if n < 10 then [48 + n]
  else natDigits (n / 10) ++ [48 + n % 10]
termination_by n
decreasing_by exact Nat.div_lt_self (by omega) (by omega)

/-- Model of `strconv.AppendInt(b, z, 10)`'s rendered bytes: a `-` (45) for a
negative value followed by the magnitude's digits, else just the digits. -/
def renderInt (z : Int) : List Nat :=
  if z < 0 then 45 :: natDigits (-z).toNat else natDigits z.toNat

/-- The `for i := 1; i < n; i++` loop of `Int64Array.Value` (custom_types.go
lines 258-261). -/
def encRestInt : List Int → List Nat
  | [] => []
  | z :: zs => 44 :: (renderInt z ++ encRestInt zs)

/-- `Int64Array.Value` (custom_types.go lines 246-267). -/
def int64ArrayValue (a : Option (List Int)) : Option (List Nat) :=
  match a with
  | none => none
  | some [] => some [123, 125]
  | some (z :: zs) => some (123 :: (renderInt z ++ (encRestInt zs ++ [125])))

/-- Feed a `driver.Value` produced by a `Value` method (`nil` or a byte slice)
back into a `Scan` method's `src interface{}` argument. -/
def toScanSrc : Option (List Nat) → ScanSrc
  | none => .null
  | some b => .bytes b

/-! ## Paginator (sqlbuilder package, paginator source file) -/

/-- `errMissingCursorColumn` (the only error the paginator's own frames
produce; `errZeroPageSize` is declared in the source but never returned). -/
inductive PagErr where
  | missingCursorColumn
deriving DecidableEq

deriving instance DecidableEq for Except

/-- The external `Selector` interface, embedded as a free term algebra over the
calls the paginator performs.  `nilSel` is the zero value of the interface (the
`sel` field of a fresh `paginatorQuery`); `base` stands for an arbitrary
caller-supplied selector.  `wrapSub inner proj col` records
`SQLBuilder().Select(proj).From(Raw("? AS _q0", inner)).OrderBy(col)`
(the backward-direction subquery wrapping of `buildWithCursor`). -/
inductive Selector (α : Type) where
  | nilSel
  | base
  | limit (s : Selector α) (n : Int)
  | offset (s : Selector α) (n : Int)
  | orderBy (s : Selector α) (col : String)
  | whereCond (s : Selector α) (cond : String × α)
  | wrapSub (inner : Selector α) (proj : String) (col : String)
deriving DecidableEq

/-- `paginatorQuery` (the resolved state built by chain replay).  `cursorCond`
models the single-entry `db.Cond` map the source constructs (`none` = nil
map); its key is the string `column + " >"` or `column + " <"`. -/
structure paginatorQuery (α : Type) where
  sel : Selector α
  cursorColumn : String
  cursorValue : Option α
  cursorCond : Option (String × α)
  cursorReverseOrder : Bool
  pageSize : Int
  pageNumber : Int
deriving DecidableEq

/-- `paginator`: an immutable backward-pointing chain of frames.  `nil` is the
zero-value `&paginator{}` head (`fn == nil`, `prev == nil`); `frame prev fn`
is the node returned by the `frame` method. -/
inductive paginator (α : Type) where
  | nil
  | frame (prev : paginator α) (fn : paginatorQuery α → Except PagErr (paginatorQuery α))

/-- The `prev` field (also the `Prev()` method of the `immutable.Immutable`
interface: `none` models the Go nil returned at the chain head). -/
def paginator.prev {α : Type} : paginator α → Option (paginator α)
  | .nil => none
  | .frame p _ => some p

/-- `Base()` of the immutable interface: a fresh zero-value `paginatorQuery`. -/
def basePaginatorQuery (α : Type) : paginatorQuery α :=
  { sel := .nilSel, cursorColumn := "", cursorValue := none, cursorCond := none,
    cursorReverseOrder := false, pageSize := 0, pageNumber := 0 }

/-- `immutable.FastForward` specialised to the paginator (the `build` method):
start from `Base()` at the oldest frame and apply each frame's `fn` from oldest
to newest; the first failing frame aborts with its error. -/
def paginator.build {α : Type} : paginator α → Except PagErr (paginatorQuery α)
  | .nil => .ok (basePaginatorQuery α)
  | .frame p f =>
    match p.build with
    | .error e => .error e
    | .ok pq => f pq

/-- Reduce `z` into the signed 64-bit range, modelling Go `int` overflow of a
product of two in-range operands. -/
def wrap64 (z : Int) : Int :=
  (z + 2 ^ 63) % 2 ^ 64 - 2 ^ 63

/-- The page-size normalization of `newPaginator`: any negative size becomes
the `-1` "unlimited" sentinel. -/
def normPageSize (ps : Int) : Int :=
  if ps < 0 then -1 else ps

/-- `paginator.Page`: normalizes a negative page number to the `-1` sentinel;
a sentinel page resolves to `Offset(-1)`, otherwise to
`Offset(pageSize * pageNumber)` (a Go `int` product, hence `wrap64`). -/
def paginator.Page {α : Type} (pag : paginator α) (pageNumber : Int) : paginator α :=
  pag.frame fun pq =>
    let pn := if pageNumber < 0 then -1 else pageNumber
    let pq1 := { pq with pageNumber := pn }
    if pq1.pageNumber < 0 then
      .ok { pq1 with sel := pq1.sel.offset (-1) }
    else
      .ok { pq1 with sel := pq1.sel.offset (wrap64 (pq1.pageSize * pq1.pageNumber)) }

/-- `newPaginator(sel, pageSize)`: one frame normalizing the page size and
seeding the query with `sel.Limit(pageSize)`, followed by `Page(0)`. -/
def newPaginator {α : Type} (sel : Selector α) (pageSize : Int) : paginator α :=
  (paginator.nil.frame fun pq =>
    .ok { pq with pageSize := normPageSize pageSize,
                  sel := sel.limit (normPageSize pageSize) }).Page 0

/-- `paginator.Cursor`: set the keyset column and clear the staged value. -/
def paginator.Cursor {α : Type} (pag : paginator α) (column : String) : paginator α :=
  pag.frame fun pq =>
    .ok { pq with cursorColumn := column, cursorValue := none }

/-- `paginator.NextPage`: fail with `errMissingCursorColumn` when a value was
already staged and no column is configured; otherwise stage the value, set the
forward direction, and replace the condition with `column + " >" ↦ value`. -/
def paginator.NextPage {α : Type} (pag : paginator α) (cursorValue : α) : paginator α :=
  pag.frame fun pq =>
    if pq.cursorValue.isSome ∧ pq.cursorColumn = "" then
      .error .missingCursorColumn
    else
      .ok { pq with cursorValue := some cursorValue,
                    cursorReverseOrder := false,
                    cursorCond := some (pq.cursorColumn ++ " >", cursorValue) }

/-- `paginator.PrevPage`: as `NextPage` but backward direction and condition
`column + " <" ↦ value`. -/
def paginator.PrevPage {α : Type} (pag : paginator α) (cursorValue : α) : paginator α :=
  pag.frame fun pq =>
    if pq.cursorValue.isSome ∧ pq.cursorColumn = "" then
      .error .missingCursorColumn
    else
      .ok { pq with cursorValue := some cursorValue,
                    cursorReverseOrder := true,
                    cursorCond := some (pq.cursorColumn ++ " <", cursorValue) }

/-- Model of `strings.HasPrefix(col, dash)`: `-` is byte 45 / a single
character, so this is a first-character test. -/
def startsWithDash (c : String) : Bool :=
  match c.data with
  | '-' :: _ => true
  | _ => false

/-- The order-flip of `buildWithCursor` (paginator source, lines 262-266):
strip a leading `-`, or prepend one. -/
def flipOrderColumn (c : String) : String :=
  if startsWithDash c then String.mk c.data.tail else "-" ++ c

/-- `paginator.buildWithCursor` (paginator source, lines 252-283): resolve the
chain, then (1) `OrderBy` the cursor column — flipped when the direction is
backward — if a column is configured, (2) apply the cursor condition as a
`Where` filter and force `Offset(0)` if one is set, (3) if the direction is
backward, wrap the query as subquery `_q0`, project `_q0.*`, and re-apply the
cursor column as the outer `OrderBy` in its original (non-flipped) form. -/
def paginator.buildWithCursor {α : Type} (pag : paginator α) :
    Except PagErr (paginatorQuery α) :=
  match pag.build with
  | .error e => .error e
  | .ok pq0 =>
    let ob :=
      if pq0.cursorReverseOrder then flipOrderColumn pq0.cursorColumn
      else pq0.cursorColumn
    let pq1 :=
      if pq0.cursorColumn = "" then pq0
      else { pq0 with sel := pq0.sel.orderBy ob }
    let pq2 :=
      match pq1.cursorCond with
      | none => pq1
      | some cond => { pq1 with sel := (pq1.sel.whereCond cond).offset 0 }
    let pq3 :=
      if pq2.cursorReverseOrder then
        { pq2 with sel := Selector.wrapSub pq2.sel "_q0.*" pq2.cursorColumn }
      else pq2
    .ok pq3

/-- `TotalItems`: resolve the chain (without cursor handling) and run the
count query.  Executing `count(1)` is external I/O performed by the Selector;
its result is supplied as the `count` oracle parameter. -/
def paginator.TotalItems {α : Type} (pag : paginator α) (count : Nat) :
    Except PagErr Nat :=
  match pag.build with
  | .error e => .error e
  | .ok _ => .ok count

/-- `TotalPages`: resolve, count, then return 1 for a non-positive page size
and otherwise the ceiling of `count / pageSize`.  The source computes the
ceiling as `uint64(math.Ceil(float64(count) / float64(pageSize)))`; the float64
computation is modelled as exact ceiling division: a count below `2^53` and its
quotient are represented exactly, and the rounded quotient of exactly
represented operands never crosses an integer (the fractional part of
`count/pageSize` is at least `1/pageSize`, which exceeds half an ulp of the
quotient whenever `pageSize * quotient ≤ count < 2^53`), so the two
computations agree on every count a row count can reach. -/
def paginator.TotalPages {α : Type} (pag : paginator α) (count : Nat) :
    Except PagErr Nat :=
  match pag.build with
  | .error e => .error e
  | .ok pq =>
    if pq.pageSize ≤ 0 then .ok 1
    else .ok ((count + (pq.pageSize.toNat - 1)) / pq.pageSize.toNat)

/-- An opaque `context.Context` forwarded unchanged to the Selector by the
cancellable operation variants. -/
inductive Ctx where
  | mk
deriving DecidableEq

/-- The terminal call a fetch-family operation hands to the Selector after
successful resolution (the destination containers of `All`/`One` are opaque
pass-through arguments and are omitted). -/
inductive SelCall (α : Type) where
  | all (s : Selector α)
  | one (s : Selector α)
  | query (s : Selector α)
  | queryContext (c : Ctx) (s : Selector α)
  | queryRow (s : Selector α)
  | queryRowContext (c : Ctx) (s : Selector α)
  | prepare (s : Selector α)
  | prepareContext (c : Ctx) (s : Selector α)
  | iterator (s : Selector α)
  | iteratorContext (c : Ctx) (s : Selector α)
  | renderString (s : Selector α)
  | arguments (s : Selector α)
deriving DecidableEq

/-- The iterator a paginator returns: either `&iterator{nil, err}` carrying
the resolution error, or the Selector's iterator. -/
inductive IterResult (α : Type) where
  | failed (e : PagErr)
  | fromSel (s : SelCall α)
deriving DecidableEq

/-- A computation that either aborts the process (Go `panic`) with an error or
produces a value. -/
inductive AbortOr (β : Type) where
  | aborted (e : PagErr)
  | value (v : β)
deriving DecidableEq

/-- `paginator.All`: resolve with cursor handling, return any resolution error
before the Selector is invoked, else delegate. -/
def paginator.All {α : Type} (pag : paginator α) : Except PagErr (SelCall α) :=
  match pag.buildWithCursor with
  | .error e => .error e
  | .ok pq => .ok (.all pq.sel)

/-- `paginator.One`. -/
def paginator.One {α : Type} (pag : paginator α) : Except PagErr (SelCall α) :=
  match pag.buildWithCursor with
  | .error e => .error e
  | .ok pq => .ok (.one pq.sel)

/-- `paginator.Query`. -/
def paginator.Query {α : Type} (pag : paginator α) : Except PagErr (SelCall α) :=
  match pag.buildWithCursor with
  | .error e => .error e
  | .ok pq => .ok (.query pq.sel)

/-- `paginator.QueryContext`. -/
def paginator.QueryContext {α : Type} (pag : paginator α) (ctx : Ctx) :
    Except PagErr (SelCall α) :=
  match pag.buildWithCursor with
  | .error e => .error e
  | .ok pq => .ok (.queryContext ctx pq.sel)

/-- `paginator.QueryRow`. -/
def paginator.QueryRow {α : Type} (pag : paginator α) : Except PagErr (SelCall α) :=
  match pag.buildWithCursor with
  | .error e => .error e
  | .ok pq => .ok (.queryRow pq.sel)

/-- `paginator.QueryRowContext`. -/
def paginator.QueryRowContext {α : Type} (pag : paginator α) (ctx : Ctx) :
    Except PagErr (SelCall α) :=
  match pag.buildWithCursor with
  | .error e => .error e
  | .ok pq => .ok (.queryRowContext ctx pq.sel)

/-- `paginator.Prepare`. -/
def paginator.Prepare {α : Type} (pag : paginator α) : Except PagErr (SelCall α) :=
  match pag.buildWithCursor with
  | .error e => .error e
  | .ok pq => .ok (.prepare pq.sel)

/-- `paginator.PrepareContext`. -/
def paginator.PrepareContext {α : Type} (pag : paginator α) (ctx : Ctx) :
    Except PagErr (SelCall α) :=
  match pag.buildWithCursor with
  | .error e => .error e
  | .ok pq => .ok (.prepareContext ctx pq.sel)

/-- `paginator.Iterator`: on resolution failure returns `&iterator{nil, err}`
(the error travels inside the returned iterator). -/
def paginator.Iterator {α : Type} (pag : paginator α) : IterResult α :=
  match pag.buildWithCursor with
  | .error e => .failed e
  | .ok pq => .fromSel (.iterator pq.sel)

/-- `paginator.IteratorContext`. -/
def paginator.IteratorContext {α : Type} (pag : paginator α) (ctx : Ctx) : IterResult α :=
  match pag.buildWithCursor with
  | .error e => .failed e
  | .ok pq => .fromSel (.iteratorContext ctx pq.sel)

/-- `paginator.String`: no error channel; on resolution failure the source
calls `panic(err.Error())`. -/
def paginator.String {α : Type} (pag : paginator α) : AbortOr (SelCall α) :=
  match pag.buildWithCursor with
  | .error e => .aborted e
  | .ok pq => .value (.renderString pq.sel)

/-- `paginator.Arguments`: no error channel; on resolution failure the source
returns `nil`, dropping the error. -/
def paginator.Arguments {α : Type} (pag : paginator α) : Option (SelCall α) :=
  match pag.buildWithCursor with
  | .error _ => none
  | .ok pq => some (.arguments pq.sel)

/-! ## Scanner lemmas -/

/-- Scanning the escaped bytes of `v` followed by a closing quote, starting
inside a quoted literal with buffer `u`, lands back in `openBracket` with
buffer `u ++ v`: escaping loses no byte. -/
theorem scanLoop_quoted (v : List Nat) : ∀ (u rest : List Nat) (acc : List (List Nat)),
    scanLoop (escapeBytes v ++ 34 :: rest) ScanState.openQuote (some u) acc
      = scanLoop rest ScanState.openBracket (some (u ++ v)) acc := by
  induction v with
  | nil =>
    intro u rest acc
    simp [escapeBytes, scanLoop]
  | cons c cs ih =>
    intro u rest acc
    by_cases h : c = 34 ∨ c = 92
    · simp only [escapeBytes, if_pos h, List.cons_append]
      simp only [scanLoop]
      norm_num
      rw [ih]
      simp
    · have h34 : ¬ c = 34 := fun hh => h (Or.inl hh)
      have h92 : ¬ c = 92 := fun hh => h (Or.inr hh)
      simp only [escapeBytes, if_neg h, List.cons_append]
      simp only [scanLoop, if_neg h34, if_neg h92]
      simp only [Option.getD_some]
      rw [ih]
      simp

/-- Scanning the encoded tail elements followed by the closing bracket, from
`openBracket` with a full buffer, flushes the buffer and every tail element. -/
theorem scanLoop_encRest (xs : List (List Nat)) : ∀ (x : List Nat) (acc : List (List Nat)),
    scanLoop (encRest xs ++ [125]) ScanState.openBracket (some x) acc = .ok (acc ++ x :: xs) := by
  induction xs with
  | nil =>
    intro x acc
    simp [encRest, scanLoop]
  | cons y ys ih =>
    intro x acc
    simp only [encRest, appendArrayQuotedString, List.nil_append, List.cons_append,
      List.append_assoc, List.singleton_append]
    simp only [scanLoop]
    norm_num
    rw [scanLoop_quoted]
    rw [ih]
    simp

/-- Encoding a present string array with `StringArray.Value` and decoding the
produced bytes with `StringArray.Scan` reproduces exactly the original
elements, for any prior receiver value. -/
theorem stringArray_roundtrip (xs : List (List Nat)) (old : Option (List (List Nat))) :
    stringArrayScan old (toScanSrc (stringArrayValue (some xs))) = (none, some xs) := by
  cases xs with
  | nil => rfl
  | cons x xs =>
    simp only [stringArrayValue, toScanSrc, stringArrayScan, appendArrayQuotedString,
      List.cons_append, List.nil_append, List.append_assoc, List.singleton_append]
    norm_num
    simp only [scanLoop]
    norm_num
    rw [scanLoop_quoted]
    rw [scanLoop_encRest]
    simp

/-! ## Integer rendering and parsing lemmas -/

/-- Every byte `natDigits` produces is a decimal digit (48-57). -/
theorem natDigits_mem : (n : Nat) → ∀ d ∈ natDigits n, 48 ≤ d ∧ d ≤ 57
  | n => by
    intro d hd
    by_cases h : n < 10
    · rw [natDigits] at hd
      simp [h] at hd
      omega
    · rw [natDigits] at hd
      simp only [if_neg h, List.mem_append, List.mem_singleton] at hd
      rcases hd with hd | hd
      · exact natDigits_mem (n / 10) d hd
      · have : n % 10 < 10 := Nat.mod_lt _ (by omega)
        omega
termination_by n => n
decreasing_by exact Nat.div_lt_self (by omega) (by omega)

/-- `natDigits` always produces at least one digit. -/
theorem natDigits_ne_nil (n : Nat) : natDigits n ≠ [] := by
  rw [natDigits]
  split <;> simp

/-- `parseNatAux` distributes over list append. -/
theorem parseNatAux_append (l₁ : List Nat) : ∀ (acc : Nat) (l₂ : List Nat),
    parseNatAux acc (l₁ ++ l₂)
      = (parseNatAux acc l₁).bind (fun m => parseNatAux m l₂) := by
  induction l₁ with
  | nil => intro acc l₂; simp [parseNatAux]
  | cons d ds ih =>
    intro acc l₂
    by_cases h : 48 ≤ d ∧ d ≤ 57
    · simp only [List.cons_append, parseNatAux, if_pos h]
      exact ih _ _
    · simp [parseNatAux, if_neg h]

/-- Reading back the digits of `n` on top of accumulator `acc`. -/
theorem parseNatAux_natDigits : (n : Nat) → ∀ acc : Nat,
    parseNatAux acc (natDigits n) = some (acc * 10 ^ (natDigits n).length + n)
  | n => by
    intro acc
    by_cases h : n < 10
    · rw [natDigits]
      simp only [if_pos h, parseNatAux, List.length_singleton]
      have hd : 48 ≤ 48 + n ∧ 48 + n ≤ 57 := by omega
      simp [hd]
    · rw [natDigits]
      simp only [if_neg h]
      rw [parseNatAux_append]
      rw [parseNatAux_natDigits (n / 10) acc]
      have hm : n % 10 < 10 := Nat.mod_lt _ (by omega)
      simp only [Option.some_bind]
      have hd : 48 ≤ 48 + n % 10 ∧ 48 + n % 10 ≤ 57 := by omega
      simp only [parseNatAux, if_pos hd, List.length_append, List.length_singleton, pow_succ,
        Option.some.injEq]
      rw [← Nat.mul_assoc]
      generalize acc * 10 ^ (natDigits (n / 10)).length = A
      omega
termination_by n => n
decreasing_by exact Nat.div_lt_self (by omega) (by omega)

/-- Parsing back the rendering of any signed-64-bit-range integer. -/
theorem parseInt64_renderInt (z : Int) (h1 : -(2 ^ 63) ≤ z) (h2 : z < 2 ^ 63) :
    parseInt64 (renderInt z) = some z := by
  by_cases hz : z < 0
  · simp only [renderInt, if_pos hz, parseInt64]
    norm_num
    refine ⟨natDigits_ne_nil _, ?_⟩
    rw [parseNatAux_natDigits]
    simp only [Nat.zero_mul, Nat.zero_add]
    have hle : (-z).toNat ≤ 9223372036854775808 := by
      rw [Int.toNat_le]
      push_cast
      omega
    simp only [if_pos hle]
    have : ((-z).toNat : Int) = -z := Int.toNat_of_nonneg (by omega)
    rw [this]
    simp
  · have hz0 : 0 ≤ z := by omega
    simp only [renderInt, if_neg hz]
    obtain ⟨c, rest, hcr⟩ : ∃ c rest, natDigits z.toNat = c :: rest := by
      cases hn : natDigits z.toNat with
      | nil => exact absurd hn (natDigits_ne_nil _)
      | cons c rest => exact ⟨c, rest, rfl⟩
    have hc : 48 ≤ c ∧ c ≤ 57 := natDigits_mem _ c (by rw [hcr]; simp)
    rw [hcr]
    simp only [parseInt64]
    have h45 : ¬ (c = 45) := by omega
    have hor : ¬ (c = 43 ∨ c = 45) := by omega
    simp only [if_neg hor]
    rw [if_neg (List.cons_ne_nil c rest)]
    rw [← hcr, parseNatAux_natDigits]
    simp only [Nat.zero_mul, Nat.zero_add]
    have h45d : decide (c = 45) = false := by simp [h45]
    simp only [h45d, Bool.false_eq_true, if_false]
    have hle : z.toNat ≤ 2 ^ 63 - 1 := by
      have : (z.toNat : Int) = z := Int.toNat_of_nonneg hz0
      omega
    simp only [if_pos hle]
    rw [Int.toNat_of_nonneg hz0]

/-- A comma-free byte list is a single split segment. -/
theorem splitComma_not_mem (a : List Nat) (h : 44 ∉ a) : splitComma a = [a] := by
  induction a with
  | nil => rfl
  | cons c cs ih =>
    have hc : ¬ (c = 44) := fun hh => h (by simp [hh])
    have hcs : 44 ∉ cs := fun hh => h (List.mem_cons_of_mem _ hh)
    simp [splitComma, hc, ih hcs]

/-- Splitting a comma-free segment, a comma, and a remainder. -/
theorem splitComma_append (a rest : List Nat) (h : 44 ∉ a) :
    splitComma (a ++ 44 :: rest) = a :: splitComma rest := by
  induction a with
  | nil => simp [splitComma]
  | cons c cs ih =>
    have hc : ¬ (c = 44) := fun hh => h (by simp [hh])
    have hcs : 44 ∉ cs := fun hh => h (List.mem_cons_of_mem _ hh)
    have ih2 : splitComma (List.append cs (44 :: rest)) = cs :: splitComma rest := ih hcs
    simp only [List.cons_append, splitComma, if_neg hc, ih2]

/-- The rendering of an integer contains no comma byte. -/
theorem renderInt_no_comma (z : Int) : 44 ∉ renderInt z := by
  intro h
  unfold renderInt at h
  by_cases hz : z < 0
  · rw [if_pos hz] at h
    rcases List.mem_cons.mp h with h | h
    · omega
    · have := natDigits_mem _ 44 h
      omega
  · rw [if_neg hz] at h
    have := natDigits_mem _ 44 h
    omega

/-- The rendering of an integer is never empty. -/
theorem renderInt_ne_nil (z : Int) : renderInt z ≠ [] := by
  unfold renderInt
  split
  · simp
  · exact natDigits_ne_nil _

/-- `strings.Split` recovers each rendered token of an encoded tail. -/
theorem splitComma_renderInts (zs : List Int) : ∀ z : Int,
    splitComma (renderInt z ++ encRestInt zs) = renderInt z :: List.map renderInt zs := by
  induction zs with
  | nil =>
    intro z
    simp [encRestInt, splitComma_not_mem _ (renderInt_no_comma z)]
  | cons w ws ih =>
    intro z
    simp only [encRestInt]
    rw [splitComma_append _ _ (renderInt_no_comma z)]
    rw [ih w]
    simp

/-- Parsing every rendered token of an in-range integer list succeeds. -/
theorem parseAll_renderInt (zs : List Int) (h : ∀ z ∈ zs, -(2 ^ 63) ≤ z ∧ z < 2 ^ 63) :
    parseAll (List.map renderInt zs) = some zs := by
  induction zs with
  | nil => rfl
  | cons z zs ih =>
    have hz := h z (List.mem_cons_self z zs)
    simp only [List.map_cons, parseAll, parseInt64_renderInt z hz.1 hz.2]
    rw [ih (fun w hw => h w (List.mem_cons_of_mem _ hw))]

/-- Encoding a present integer array with `Int64Array.Value` and decoding the
produced bytes with `Int64Array.Scan` reproduces exactly the original
elements, provided every element is in the signed 64-bit range (which every Go
`int64` is by type). -/
theorem int64Array_roundtrip (zs : List Int) (old : Option (List Int))
    (h : ∀ z ∈ zs, -(2 ^ 63) ≤ z ∧ z < 2 ^ 63) :
    int64ArrayScan old (toScanSrc (int64ArrayValue (some zs))) = (none, some zs) := by
  cases zs with
  | nil => rfl
  | cons z zs =>
    simp only [int64ArrayValue, toScanSrc, int64ArrayScan]
    rw [if_neg (by simp)]
    have hdrop : ((123 :: (renderInt z ++ (encRestInt zs ++ [125]))).drop 1).dropLast
        = renderInt z ++ encRestInt zs := by
      simp only [List.drop_succ_cons, List.drop_zero]
      rw [← List.append_assoc, List.dropLast_concat]
    rw [hdrop]
    rw [if_neg (by simp [renderInt_ne_nil z])]
    rw [splitComma_renderInts, ← List.map_cons, parseAll_renderInt (z :: zs) h]

/-! ## Claims about the array codec -/

/-- Claim C1, counterexample: the claim asserts that decoding a byte input
missing its closing bracket fails with a decode error, but `StringArray.Scan`
on the two bytes `{a` (123, 97) returns no error at all: the loop simply runs
out of input and the receiver is assigned the (empty) list of elements flushed
so far. -/
theorem claim_C1_cex : stringArrayScan none (ScanSrc.bytes [123, 97]) = (none, some []) := by
  decide

/-- Claim C1 (amended): decoding an absent (nil) source yields an absent
result with no error, and so does a zero-length byte source.  For any other
byte input the first byte is skipped without validation (the input need not
begin with a bracket: the two scans below differ only in their ignored first
byte), an input missing its closing bracket does not fail — the scan returns,
without error, exactly the elements flushed before the input ended (shown on
`{a,b`, which silently decodes to the single element `a`) — and any byte
consumed after a closing bracket (the `stop` state) fails with a decode error
(shown generally on the scan loop and end-to-end on `{}x`). -/
theorem claim_C1 :
    (∀ a, stringArrayScan a ScanSrc.null = (none, none))
    ∧ (∀ a, stringArrayScan a (ScanSrc.bytes []) = (none, none))
    ∧ (∀ c cs buffer results,
        scanLoop (c :: cs) ScanState.stop buffer results = .error DecodeErr.trailingData)
    ∧ (∀ a b1 b2 rest,
        stringArrayScan a (ScanSrc.bytes (b1 :: rest))
          = stringArrayScan a (ScanSrc.bytes (b2 :: rest)))
    ∧ stringArrayScan none (ScanSrc.bytes [123, 97, 44, 98]) = (none, some [[97]])
    ∧ stringArrayScan none (ScanSrc.bytes [123, 125, 120]) = (some DecodeErr.trailingData, none) :=
  ⟨fun _ => rfl, fun _ => rfl, fun _ _ _ _ => rfl, fun _ _ _ _ => rfl, by decide, by decide⟩

/-- Claim C7: round-trip fidelity of the array codec.  Encoding any present
string sequence with `StringArray.Value` and decoding the produced bytes with
`StringArray.Scan` reproduces exactly the original elements in order, and the
same holds for `Int64Array` for every sequence of integers in the signed
64-bit range (every Go `int64` value).  In particular this covers the UTF-8
byte sequences of `a`, `b,c`, `x"y`, the empty string, and `z\w`, and the
integers -1, 0, 9223372036854775807 (instantiated in the witness). -/
theorem claim_C7 :
    (∀ (xs : List (List Nat)) (old : Option (List (List Nat))),
        stringArrayScan old (toScanSrc (stringArrayValue (some xs))) = (none, some xs))
    ∧ (∀ (zs : List Int) (old : Option (List Int)),
        (∀ z ∈ zs, -(2 ^ 63) ≤ z ∧ z < 2 ^ 63) →
        int64ArrayScan old (toScanSrc (int64ArrayValue (some zs))) = (none, some zs)) :=
  ⟨stringArray_roundtrip, int64Array_roundtrip⟩

/-- Claim C7, witness: the round trip at the two concrete sequences named by
the claim (`["a", "b,c", "x\"y", "", "z\\w"]` as bytes, and
`[-1, 0, 9223372036854775807]`). -/
theorem claim_C7_witness :
    stringArrayScan none
        (toScanSrc (stringArrayValue (some [[97], [98, 44, 99], [120, 34, 121], [], [122, 92, 119]])))
      = (none, some [[97], [98, 44, 99], [120, 34, 121], [], [122, 92, 119]])
    ∧ int64ArrayScan none (toScanSrc (int64ArrayValue (some [-1, 0, 9223372036854775807])))
      = (none, some [-1, 0, 9223372036854775807]) :=
  ⟨claim_C7.1 _ _, claim_C7.2 _ _ (by decide)⟩

/-- Claim C10: decode atomicity.  Whenever `StringArray.Scan` or
`Int64Array.Scan` returns a non-nil error (non-byte-slice source, trailing
data past the closing bracket, or an unparsable integer token), the receiver
array is left completely unchanged: the source assigns the receiver only after
the whole input has been processed successfully. -/
theorem claim_C10 :
    (∀ (a : Option (List (List Nat))) (src : ScanSrc) (e : DecodeErr),
        (stringArrayScan a src).1 = some e → (stringArrayScan a src).2 = a)
    ∧ (∀ (a : Option (List Int)) (src : ScanSrc) (e : DecodeErr),
        (int64ArrayScan a src).1 = some e → (int64ArrayScan a src).2 = a) := by
  constructor
  · intro a src e h
    cases src with
    | null => simp [stringArrayScan] at h
    | nonBytes => simp [stringArrayScan]
    | bytes b =>
      simp only [stringArrayScan] at h ⊢
      by_cases hb : b.length = 0
      · simp [hb] at h
      · simp only [if_neg hb] at h ⊢
        cases hsc : scanLoop (b.drop 1) .openBracket none [] with
        | error e2 => simp [hsc]
        | ok r => rw [hsc] at h; simp at h
  · intro a src e h
    cases src with
    | null => simp [int64ArrayScan] at h
    | nonBytes => simp [int64ArrayScan]
    | bytes b =>
      simp only [int64ArrayScan] at h ⊢
      by_cases hb : b.length = 0
      · simp [hb] at h
      · simp only [if_neg hb, List.drop_one] at h ⊢
        by_cases hs : b.tail.dropLast = []
        · simp [hs] at h
        · simp only [if_neg hs] at h ⊢
          cases hp : parseAll (splitComma (b.tail.dropLast)) with
          | none => simp [hp]
          | some r => rw [hp] at h; simp at h

/-- Claim C10, witness: a trailing-data failure (`{}x`) leaves a previously
decoded string receiver untouched, and an unparsable-token failure (`{x}`)
leaves a previously decoded integer receiver untouched. -/
theorem claim_C10_witness :
    (stringArrayScan (some [[97]]) (ScanSrc.bytes [123, 125, 120])).2 = some [[97]]
    ∧ (int64ArrayScan (some [7]) (ScanSrc.bytes [123, 120, 125])).2 = some [7] :=
  ⟨claim_C10.1 _ _ DecodeErr.trailingData (by decide),
   claim_C10.2 _ _ DecodeErr.parseIntError (by decide)⟩

/-! ## Paginator lemmas -/

/-- `wrap64` of zero is zero. -/
@[simp] theorem wrap64_zero : wrap64 0 = 0 := by
  unfold wrap64
  norm_num

/-- `wrap64` is the identity on the signed 64-bit range. -/
theorem wrap64_eq_self (z : Int) (h1 : -(2 ^ 63) ≤ z) (h2 : z < 2 ^ 63) : wrap64 z = z := by
  unfold wrap64
  omega

/-- Appending to the empty string is the identity. -/
@[simp] theorem string_empty_append (s : String) : "" ++ s = s := rfl

/-- Resolving a fresh paginator: the page size is normalized, the selector is
seeded with `Limit` and (through the initial `Page(0)`) `Offset(0)`. -/
theorem build_newPaginator {α : Type} (s : Selector α) (ps : Int) :
    (newPaginator s ps).build = .ok
      { sel := (s.limit (normPageSize ps)).offset 0, cursorColumn := "", cursorValue := none,
        cursorCond := none, cursorReverseOrder := false,
        pageSize := normPageSize ps, pageNumber := 0 } := by
  simp [newPaginator, paginator.Page, paginator.build, basePaginatorQuery]

/-! ## Claims about the paginator -/

/-- Claim C9: every fluent operation (`frame`, `Page`, `Cursor`, `NextPage`,
`PrevPage`) returns a new chain handle whose `prev` reference is the receiver;
in this pure embedding nothing is ever mutated, and the final conjunct shows
that resolving an extended handle factors through the unchanged resolution of
the receiver — so two handles extended from a common ancestor each resolve
through the ancestor's own (unchanged) chain and never observe the sibling's
frames. -/
theorem claim_C9 {α : Type} (pag : paginator α)
    (f : paginatorQuery α → Except PagErr (paginatorQuery α))
    (n : Int) (c : String) (v : α) :
    (pag.frame f).prev = some pag
    ∧ (pag.Page n).prev = some pag
    ∧ (pag.Cursor c).prev = some pag
    ∧ (pag.NextPage v).prev = some pag
    ∧ (pag.PrevPage v).prev = some pag
    ∧ (pag.frame f).build = pag.build.bind f := by
  refine ⟨rfl, rfl, rfl, rfl, rfl, ?_⟩
  cases hb : pag.build <;> simp [paginator.build, Except.bind, hb]

/-- Claim C4: `NextPage`/`PrevPage` fail with `MissingCursorColumn` exactly
when a cursor value was previously staged and the cursor column is currently
empty (first conjunct, an equivalence over any successfully resolving chain);
in particular the very first such call on a fresh paginator — no column, no
staged value — succeeds and builds the degenerate condition whose key is just
`" >"` (resp. `" <"`). -/
theorem claim_C4 {α : Type} :
    (∀ (pag : paginator α) (pq : paginatorQuery α) (v : α), pag.build = .ok pq →
      (((pag.NextPage v).build = .error PagErr.missingCursorColumn)
          ↔ (pq.cursorValue.isSome ∧ pq.cursorColumn = ""))
      ∧ (((pag.PrevPage v).build = .error PagErr.missingCursorColumn)
          ↔ (pq.cursorValue.isSome ∧ pq.cursorColumn = "")))
    ∧ (∀ (s : Selector α) (ps : Int) (v : α),
        ((newPaginator s ps).NextPage v).build = .ok
          { sel := (s.limit (normPageSize ps)).offset 0, cursorColumn := "",
            cursorValue := some v, cursorCond := some (" >", v),
            cursorReverseOrder := false, pageSize := normPageSize ps, pageNumber := 0 })
    ∧ (∀ (s : Selector α) (ps : Int) (v : α),
        ((newPaginator s ps).PrevPage v).build = .ok
          { sel := (s.limit (normPageSize ps)).offset 0, cursorColumn := "",
            cursorValue := some v, cursorCond := some (" <", v),
            cursorReverseOrder := true, pageSize := normPageSize ps, pageNumber := 0 }) := by
  refine ⟨?_, ?_, ?_⟩
  · intro pag pq v hb
    constructor
    · simp only [paginator.NextPage, paginator.build, hb]
      by_cases hcond : pq.cursorValue.isSome ∧ pq.cursorColumn = ""
      · simp [hcond]
      · simp [hcond]
    · simp only [paginator.PrevPage, paginator.build, hb]
      by_cases hcond : pq.cursorValue.isSome ∧ pq.cursorColumn = ""
      · simp [hcond]
      · simp [hcond]
  · intro s ps v
    simp [paginator.NextPage, paginator.build, build_newPaginator, basePaginatorQuery]
  · intro s ps v
    simp [paginator.PrevPage, paginator.build, build_newPaginator, basePaginatorQuery]

/-- Claim C4, witness: on a fresh paginator (no staged value, no column) the
first `NextPage` call does not fail with `MissingCursorColumn`, by the
equivalence of `claim_C4` applied at its concretely resolved state. -/
theorem claim_C4_witness :
    ¬ (((newPaginator (Selector.base : Selector Int) 5).NextPage 3).build
        = .error PagErr.missingCursorColumn) := by
  intro hcontra
  have h := ((claim_C4 (α := Int)).1 (newPaginator Selector.base 5)
      { sel := (Selector.base.limit 5).offset 0, cursorColumn := "", cursorValue := none,
        cursorCond := none, cursorReverseOrder := false, pageSize := 5, pageNumber := 0 }
      3 (by decide)).1.mp hcontra
  simp at h

/-- Claim C2: for every cursor column `c` (non-empty, and not already carrying
the descending `-` marker — the claim's "ascending" reading) and value `v`,
`Cursor(c)` then `PrevPage(v)` stages the condition `c ++ " <" ↦ v` and the
backward direction; at resolution the inner query is ordered by the flipped
(descending) column `"-" ++ c`, filtered by the condition with offset forced
to 0, and then wrapped as subquery `_q0` projecting `_q0.*` with the outer
`OrderBy` on the original non-flipped `c` — so the caller observes rows in the
original ascending order on `c` while the engine fetches descending. -/
theorem claim_C2 {α : Type} (s : Selector α) (ps : Int) (c : String) (v : α)
    (hc : ¬ c = "") (hd : startsWithDash c = false) :
    (((newPaginator s ps).Cursor c).PrevPage v).buildWithCursor = .ok
      { sel := Selector.wrapSub
          ((Selector.whereCond (((s.limit (normPageSize ps)).offset 0).orderBy ("-" ++ c))
              (c ++ " <", v)).offset 0)
          "_q0.*" c,
        cursorColumn := c, cursorValue := some v, cursorCond := some (c ++ " <", v),
        cursorReverseOrder := true, pageSize := normPageSize ps, pageNumber := 0 } := by
  have hbuild : (((newPaginator s ps).Cursor c).PrevPage v).build = .ok
      { sel := (s.limit (normPageSize ps)).offset 0, cursorColumn := c, cursorValue := some v,
        cursorCond := some (c ++ " <", v), cursorReverseOrder := true,
        pageSize := normPageSize ps, pageNumber := 0 } := by
    simp [paginator.Cursor, paginator.PrevPage, paginator.build, build_newPaginator]
  simp [paginator.buildWithCursor, hbuild, hc, flipOrderColumn, hd]

/-- Claim C2, witness: the backward cursor resolution at column `id`,
value 42, page size 10. -/
theorem claim_C2_witness :
    (((newPaginator (Selector.base : Selector Int) 10).Cursor "id").PrevPage 42).buildWithCursor
      = .ok
      { sel := Selector.wrapSub
          ((Selector.whereCond (((Selector.base.limit 10).offset 0).orderBy "-id")
              ("id <", 42)).offset 0)
          "_q0.*" "id",
        cursorColumn := "id", cursorValue := some 42, cursorCond := some ("id <", 42),
        cursorReverseOrder := true, pageSize := 10, pageNumber := 0 } :=
  claim_C2 Selector.base 10 "id" 42 (by decide) (by decide)

/-- Claim C3: for every non-empty cursor column `c` and values `v1`, `v2`,
`Cursor(c)` then `NextPage(v1)` stages `v1`, sets the forward direction, and
sets the condition to exactly `c ++ " >" ↦ v1`; a subsequent `NextPage(v2)`
replaces it with `c ++ " >" ↦ v2` (the resolved state holds a single
condition, never an accumulation); resolution applies that single condition as
a `Where` filter and forces the offset to 0 (and, forward, performs no
subquery wrapping). -/
theorem claim_C3 {α : Type} (s : Selector α) (ps : Int) (c : String) (v1 v2 : α)
    (hc : ¬ c = "") :
    ((((newPaginator s ps).Cursor c).NextPage v1).build = .ok
      { sel := (s.limit (normPageSize ps)).offset 0, cursorColumn := c,
        cursorValue := some v1, cursorCond := some (c ++ " >", v1),
        cursorReverseOrder := false, pageSize := normPageSize ps, pageNumber := 0 })
    ∧ (((((newPaginator s ps).Cursor c).NextPage v1).NextPage v2).build = .ok
      { sel := (s.limit (normPageSize ps)).offset 0, cursorColumn := c,
        cursorValue := some v2, cursorCond := some (c ++ " >", v2),
        cursorReverseOrder := false, pageSize := normPageSize ps, pageNumber := 0 })
    ∧ (((((newPaginator s ps).Cursor c).NextPage v1).NextPage v2).buildWithCursor = .ok
      { sel := (Selector.whereCond (((s.limit (normPageSize ps)).offset 0).orderBy c)
            (c ++ " >", v2)).offset 0,
        cursorColumn := c, cursorValue := some v2, cursorCond := some (c ++ " >", v2),
        cursorReverseOrder := false, pageSize := normPageSize ps, pageNumber := 0 }) := by
  have h1 : ((((newPaginator s ps).Cursor c).NextPage v1).build = .ok
      { sel := (s.limit (normPageSize ps)).offset 0, cursorColumn := c,
        cursorValue := some v1, cursorCond := some (c ++ " >", v1),
        cursorReverseOrder := false, pageSize := normPageSize ps, pageNumber := 0 }) := by
    simp [paginator.Cursor, paginator.NextPage, paginator.build, build_newPaginator]
  have h2 : ((((newPaginator s ps).Cursor c).NextPage v1).NextPage v2).build = .ok
      { sel := (s.limit (normPageSize ps)).offset 0, cursorColumn := c,
        cursorValue := some v2, cursorCond := some (c ++ " >", v2),
        cursorReverseOrder := false, pageSize := normPageSize ps, pageNumber := 0 } := by
    simp only [paginator.NextPage, paginator.build, h1]
    simp [hc]
  refine ⟨h1, h2, ?_⟩
  simp [paginator.buildWithCursor, h2, hc]

/-- Claim C3, witness: the forward cursor resolution at column `id`,
values 42 then 99, page size 10. -/
theorem claim_C3_witness :
    ((((newPaginator (Selector.base : Selector Int) 10).Cursor "id").NextPage 42).NextPage 99).build
      = .ok
      { sel := (Selector.base.limit 10).offset 0, cursorColumn := "id",
        cursorValue := some 99, cursorCond := some ("id >", 99),
        cursorReverseOrder := false, pageSize := 10, pageNumber := 0 } :=
  (claim_C3 Selector.base 10 "id" 42 99 (by decide)).2.1

/-- The natural-number expression `(cnt + (t - 1)) / t` computed by
`TotalPages` equals the mathematical ceiling of `cnt / t`. -/
theorem ceilDiv_eq_ceil (cnt t : Nat) (ht : 0 < t) :
    (((cnt + (t - 1)) / t : Nat) : Int) = ⌈(cnt : ℚ) / (t : ℚ)⌉ := by
  have htq : (0 : ℚ) < (t : ℚ) := by exact_mod_cast ht
  set q := (cnt + (t - 1)) / t with hq
  have h0 := Nat.div_add_mod (cnt + (t - 1)) t
  rw [← hq] at h0
  have hm : (cnt + (t - 1)) % t < t := Nat.mod_lt _ ht
  have ha : cnt ≤ t * q := by omega
  have hb : t * q < cnt + t := by omega
  rw [eq_comm, Int.ceil_eq_iff]
  constructor
  · rw [lt_div_iff₀ htq]
    have hb2 : ((t * q : Nat) : ℚ) < ((cnt + t : Nat) : ℚ) := by exact_mod_cast hb
    push_cast at hb2 ⊢
    nlinarith [hb2]
  · rw [div_le_iff₀ htq]
    have ha2 : ((cnt : Nat) : ℚ) ≤ ((t * q : Nat) : ℚ) := by exact_mod_cast ha
    push_cast at ha2 ⊢
    nlinarith [ha2]

/-- Claim C5: `TotalPages()` returns exactly 1 whenever the resolved page size
is non-positive (including zero), regardless of the count the external count
query reports; for every positive resolved page size it returns the ceiling of
`TotalItems() / pageSize` (the third conjunct identifies the implementation's
natural-number expression with the mathematical ceiling); concretely, page
size 10 with 101 matching rows yields 11 pages. -/
theorem claim_C5 {α : Type} :
    (∀ (pag : paginator α) (count : Nat) (pq : paginatorQuery α),
        pag.build = .ok pq → pq.pageSize ≤ 0 → pag.TotalPages count = .ok 1)
    ∧ (∀ (pag : paginator α) (count : Nat) (pq : paginatorQuery α),
        pag.build = .ok pq → 0 < pq.pageSize →
        pag.TotalItems count = .ok count
        ∧ pag.TotalPages count = .ok ((count + (pq.pageSize.toNat - 1)) / pq.pageSize.toNat)
        ∧ ((((count + (pq.pageSize.toNat - 1)) / pq.pageSize.toNat : Nat) : Int)
            = ⌈(count : ℚ) / ((pq.pageSize : Int) : ℚ)⌉))
    ∧ (newPaginator (Selector.base : Selector Int) 10).TotalPages 101 = .ok 11 := by
  refine ⟨?_, ?_, by decide⟩
  · intro pag count pq hb hle
    simp [paginator.TotalPages, hb, hle]
  · intro pag count pq hb hpos
    have hle : ¬ pq.pageSize ≤ 0 := by omega
    refine ⟨by simp [paginator.TotalItems, hb], by simp [paginator.TotalPages, hb, hle], ?_⟩
    have htn : ((pq.pageSize.toNat : Nat) : ℚ) = ((pq.pageSize : Int) : ℚ) := by
      have h2 : ((pq.pageSize.toNat : Nat) : Int) = pq.pageSize := Int.toNat_of_nonneg (by omega)
      exact_mod_cast congrArg (fun z : Int => (z : ℚ)) h2
    rw [ceilDiv_eq_ceil _ _ (by omega), htn]

/-- Claim C5, witness: page size 0 yields exactly one page for an arbitrary
count, through the resolved state of a fresh zero-page-size paginator. -/
theorem claim_C5_witness :
    (newPaginator (Selector.base : Selector Int) 0).TotalPages 7 = .ok 1 :=
  (claim_C5 (α := Int)).1 _ 7
    { sel := (Selector.base.limit 0).offset 0, cursorColumn := "", cursorValue := none,
      cursorCond := none, cursorReverseOrder := false, pageSize := 0, pageNumber := 0 }
    (by decide) (by decide)

/-- Claim C6, counterexample: the claim asserts `Page(n)` resolves to
`offset = pageSize × n` for every positive page size and non-negative `n`, but
the source computes the product on Go `int`s: with pageSize `2^62` and page
number 2 the resolved offset is the wrapped value `-2^63`, not the
mathematical product `2^63`. -/
theorem claim_C6_cex :
    ((newPaginator (Selector.base : Selector Int) 4611686018427387904).Page 2).build = .ok
      { sel := ((Selector.base.limit 4611686018427387904).offset 0).offset
          (-9223372036854775808),
        cursorColumn := "", cursorValue := none, cursorCond := none,
        cursorReverseOrder := false, pageSize := 4611686018427387904, pageNumber := 2 }
    ∧ (4611686018427387904 : Int) * 2 ≠ -9223372036854775808 :=
  ⟨by decide, by decide⟩

/-- Claim C6 (amended): for every positive `pageSize` and non-negative page
number `n`, `Page(n)` resolves to `offset = pageSize × n` whenever the product
fits the signed 64-bit range (otherwise the offset is the 64-bit wrap of the
product, as in the counterexample); for every negative `n`, `Page(n)`
normalizes the page number to the `-1` sentinel and resolves to the distinct
offset `-1` passed through to the Selector, never to offset 0; normalization
triggers only on negative input — `Page(0)` keeps page number 0 and resolves
to offset 0 = pageSize × 0. -/
theorem claim_C6 {α : Type} (s : Selector α) (ps n : Int) :
    (0 < ps → 0 ≤ n → ps * n < 2 ^ 63 →
      ((newPaginator s ps).Page n).build = .ok
        { sel := ((s.limit ps).offset 0).offset (ps * n), cursorColumn := "",
          cursorValue := none, cursorCond := none, cursorReverseOrder := false,
          pageSize := ps, pageNumber := n })
    ∧ (n < 0 →
      ((newPaginator s ps).Page n).build = .ok
        { sel := ((s.limit (normPageSize ps)).offset 0).offset (-1), cursorColumn := "",
          cursorValue := none, cursorCond := none, cursorReverseOrder := false,
          pageSize := normPageSize ps, pageNumber := -1 })
    ∧ ((newPaginator s ps).Page 0).build = .ok
        { sel := ((s.limit (normPageSize ps)).offset 0).offset 0, cursorColumn := "",
          cursorValue := none, cursorCond := none, cursorReverseOrder := false,
          pageSize := normPageSize ps, pageNumber := 0 } := by
  refine ⟨?_, ?_, ?_⟩
  · intro hps hn hfit
    have hnps : normPageSize ps = ps := by simp [normPageSize]; omega
    have hnn : ¬ n < 0 := by omega
    have hwrap : wrap64 (ps * n) = ps * n :=
      wrap64_eq_self _ (by nlinarith) hfit
    simp [paginator.Page, paginator.build, build_newPaginator, hnps, hnn, hwrap,
      basePaginatorQuery]
  · intro hn
    simp [paginator.Page, paginator.build, build_newPaginator, hn, basePaginatorQuery]
  · simp [paginator.Page, paginator.build, build_newPaginator, basePaginatorQuery]

/-- Claim C6, witness: page size 10, page number 3 resolves to offset 30. -/
theorem claim_C6_witness :
    ((newPaginator (Selector.base : Selector Int) 10).Page 3).build = .ok
      { sel := ((Selector.base.limit 10).offset 0).offset 30, cursorColumn := "",
        cursorValue := none, cursorCond := none, cursorReverseOrder := false,
        pageSize := 10, pageNumber := 3 } :=
  (claim_C6 Selector.base 10 3).1 (by decide) (by decide) (by decide)

/-- Claim C8, counterexample: the claim asserts every fetch-family operation,
including the bound-arguments introspection accessor, returns any resolution
error to its immediate caller — but on a chain whose resolution fails with
`MissingCursorColumn`, `Arguments()` returns `nil` (here `none`), silently
suppressing the error. -/
theorem claim_C8_cex :
    (((newPaginator (Selector.base : Selector Int) 5).NextPage 1).NextPage 2).buildWithCursor
      = .error PagErr.missingCursorColumn
    ∧ (((newPaginator (Selector.base : Selector Int) 5).NextPage 1).NextPage 2).Arguments
      = none :=
  ⟨by decide, by decide⟩

/-- Claim C8 (amended): every fetch-family operation (`All`, `One`, `Query`,
`QueryRow`, `Prepare` and their context variants, `Iterator` and its context
variant) first resolves the chain with cursor handling and returns any
resolution error to its immediate caller before the Selector is invoked (for
the iterators, the error travels inside the returned iterator); the
rendered-text accessor, having no error channel, aborts on resolution
failure; the bound-arguments accessor, also lacking an error channel, returns
a nil argument list on resolution failure, silently suppressing the error.
On successful resolution each operation delegates the resolved selector
unchanged. -/
theorem claim_C8 {α : Type} :
    (∀ (pag : paginator α) (e : PagErr) (ctx : Ctx), pag.buildWithCursor = .error e →
      pag.All = .error e ∧ pag.One = .error e ∧ pag.Query = .error e
      ∧ pag.QueryContext ctx = .error e ∧ pag.QueryRow = .error e
      ∧ pag.QueryRowContext ctx = .error e ∧ pag.Prepare = .error e
      ∧ pag.PrepareContext ctx = .error e ∧ pag.Iterator = .failed e
      ∧ pag.IteratorContext ctx = .failed e ∧ pag.String = .aborted e
      ∧ pag.Arguments = none)
    ∧ (∀ (pag : paginator α) (pq : paginatorQuery α) (ctx : Ctx),
        pag.buildWithCursor = .ok pq →
      pag.All = .ok (.all pq.sel) ∧ pag.One = .ok (.one pq.sel)
      ∧ pag.Query = .ok (.query pq.sel)
      ∧ pag.QueryContext ctx = .ok (.queryContext ctx pq.sel)
      ∧ pag.QueryRow = .ok (.queryRow pq.sel)
      ∧ pag.QueryRowContext ctx = .ok (.queryRowContext ctx pq.sel)
      ∧ pag.Prepare = .ok (.prepare pq.sel)
      ∧ pag.PrepareContext ctx = .ok (.prepareContext ctx pq.sel)
      ∧ pag.Iterator = .fromSel (.iterator pq.sel)
      ∧ pag.IteratorContext ctx = .fromSel (.iteratorContext ctx pq.sel)
      ∧ pag.String = .value (.renderString pq.sel)
      ∧ pag.Arguments = some (.arguments pq.sel)) := by
  constructor
  · intro pag e ctx h
    exact ⟨by simp [paginator.All, h], by simp [paginator.One, h],
      by simp [paginator.Query, h], by simp [paginator.QueryContext, h],
      by simp [paginator.QueryRow, h], by simp [paginator.QueryRowContext, h],
      by simp [paginator.Prepare, h], by simp [paginator.PrepareContext, h],
      by simp [paginator.Iterator, h], by simp [paginator.IteratorContext, h],
      by simp [paginator.String, h], by simp [paginator.Arguments, h]⟩
  · intro pag pq ctx h
    exact ⟨by simp [paginator.All, h], by simp [paginator.One, h],
      by simp [paginator.Query, h], by simp [paginator.QueryContext, h],
      by simp [paginator.QueryRow, h], by simp [paginator.QueryRowContext, h],
      by simp [paginator.Prepare, h], by simp [paginator.PrepareContext, h],
      by simp [paginator.Iterator, h], by simp [paginator.IteratorContext, h],
      by simp [paginator.String, h], by simp [paginator.Arguments, h]⟩

/-- Claim C8, witness: on the failing chain of the counterexample, `All`
returns the resolution error itself. -/
theorem claim_C8_witness :
    (((newPaginator (Selector.base : Selector Int) 5).NextPage 1).NextPage 2).All
      = .error PagErr.missingCursorColumn :=
  ((claim_C8 (α := Int)).1 _ PagErr.missingCursorColumn Ctx.mk (by decide)).1
